import Mathlib

/-!
Shallow embedding of the order-placement microservices
(`src/pedidos/app.py`, `src/productos/app.py`).

Modelling conventions:
* HTTP outcomes are a `Res` value: `ok` with a body, or `err` with the HTTP
  status code raised via `HTTPException`.
* A bearer token is abstracted to its decoded content: validity, subject id
  and role (`get_current_user` in both services).
* Monetary values (`price`, `unit_price`, `total_amount`) are modelled as
  exact integers: every operation the code performs on them is `+` or `*`,
  and all values appearing in the specification are integral, so Python
  float arithmetic coincides with exact arithmetic on them.
* The network is modelled by a schedule `World.transport : List Bool`; each
  outgoing HTTP request consumes one entry (missing entries mean success).
  `false` means the request raises `requests.RequestException`
  (connection error / timeout) and the remote state is untouched.
* Every outgoing inventory request is recorded in `World.trace`, whether or
  not its transport succeeds, so "a call was issued" is observable.
-/

namespace Micro

/-- Decoded bearer token as both services see it after `jwt.decode`:
`valid = false` models a token that fails decoding (expired / bad signature). -/
structure Token where
  valid : Bool
  sub : Int
  role : String
deriving DecidableEq, Repr

/-! ## Productos service (`src/productos/app.py`) -/

/-- Row of the `products` table. -/
structure Product where
  id : Int
  price : Int
  is_active : Bool
deriving DecidableEq, Repr

/-- Row of the `stock` table. -/
structure StockRow where
  product_id : Int
  units_available : Int
deriving DecidableEq, Repr

/-- Database of the productos service. -/
structure ProdState where
  products : List Product
  stock : List StockRow
deriving DecidableEq, Repr

/-- `db.query(Stock).filter(Stock.product_id == pid).first()`. -/
def findStockRow (ps : ProdState) (pid : Int) : Option StockRow :=
  ps.stock.find? (fun r => r.product_id == pid)

/-- Update the first stock row of `pid` (the primary key is unique). -/
def updateStock (rows : List StockRow) (pid : Int) (f : Int → Int) : List StockRow :=
  match rows with
  | [] => []
  | r :: rest =>
      if r.product_id = pid then { r with units_available := f r.units_available } :: rest
      else r :: updateStock rest pid f

/-- Body of a 200 response of `GET /stock/check`, restricted to the keys the
pedidos service reads (`ok`, `available`, `price`); a key absent from the
JSON body is represented by the default value `.get` would supply. -/
structure CheckOut where
  ok : Bool
  available : Int
  price : Int
deriving DecidableEq, Repr

/-- Endpoint `GET /stock/check` (`check_stock`): auth via `get_current_user`,
then `qty <= 0` short-circuit, product lookup among active products, and
availability comparison. Returns (HTTP status, body when 200). -/
def check_stock (tok : Token) (pid qty : Int) (ps : ProdState) : Nat × Option CheckOut :=
  if ¬ tok.valid then (401, none)
  else if qty ≤ 0 then (200, some ⟨false, 0, 0⟩)
  else
    match ps.products.find? (fun p => p.id == pid && p.is_active) with
    | none => (404, none)
    | some p =>
        let available := match findStockRow ps pid with
          | some s => s.units_available
          | none => 0
        (200, some ⟨decide (available ≥ qty), available, p.price⟩)

/-- Endpoint `PATCH /stock/{pid}/increase` (`increase_stock`): requires the
admin role (`require_admin`), 404 without a stock row, otherwise adds
`max 0 amount`. Returns (HTTP status, new state). -/
def increase_stock (tok : Token) (pid amount : Int) (ps : ProdState) : Nat × ProdState :=
  if ¬ tok.valid then (401, ps)
  else if tok.role ≠ "admin" then (403, ps)
  else
    match findStockRow ps pid with
    | none => (404, ps)
    | some _ => (200, { ps with stock := updateStock ps.stock pid (fun u => u + max 0 amount) })

/-- Endpoint `PATCH /stock/{pid}/decrease` (`decrease_stock`): requires the
admin role, 404 without a stock row, 409 when `amount <= 0` or availability
is short, otherwise subtracts. Returns (HTTP status, new state). -/
def decrease_stock (tok : Token) (pid amount : Int) (ps : ProdState) : Nat × ProdState :=
  if ¬ tok.valid then (401, ps)
  else if tok.role ≠ "admin" then (403, ps)
  else
    match findStockRow ps pid with
    | none => (404, ps)
    | some s =>
        if amount ≤ 0 ∨ s.units_available < amount then (409, ps)
        else (200, { ps with stock := updateStock ps.stock pid (fun u => u - amount) })

/-! ## Network layer of the pedidos service (`_auth_headers`, `productos_*`) -/

/-- One outgoing inventory request, as issued by the pedidos service. -/
inductive InvCall where
  | check (pid qty : Int)
  | decrease (pid amount : Int)
  | increase (pid amount : Int)
deriving DecidableEq, Repr

/-- Whether the recorded call is a stock check. -/
def InvCall.isCheck : InvCall → Bool
  | .check _ _ => true
  | _ => false

/-- Whether the recorded call is a stock decrease. -/
def InvCall.isDecrease : InvCall → Bool
  | .decrease _ _ => true
  | _ => false

/-- Whether the recorded call is a compensating stock increase. -/
def InvCall.isIncrease : InvCall → Bool
  | .increase _ _ => true
  | _ => false

/-- The world outside the pedidos process: the inventory database, the
transport schedule (one Bool per outgoing request; exhausted = success) and
the log of issued requests. -/
structure World where
  prod : ProdState
  transport : List Bool
  trace : List InvCall
deriving DecidableEq, Repr

/-- Record an outgoing request and consume one transport slot; returns
whether the request reached the productos service. -/
def World.send (w : World) (c : InvCall) : Bool × World :=
  (w.transport.headD true,
   { w with transport := w.transport.tail, trace := w.trace ++ [c] })

/-- Outcome of an HTTP handler: a body, or an `HTTPException` status. -/
inductive Res (α : Type) where
  | ok (val : α)
  | err (status : Nat)
deriving DecidableEq, Repr

/-- Whether a `Res` is an error. -/
def Res.isErr {α : Type} : Res α → Bool
  | .ok _ => false
  | .err _ => true

/-- Helper `productos_check_stock` of the pedidos service: transport failure
raises 503; statuses 401/404/other ≥ 400 are re-raised; a 200 body is
returned (missing JSON keys read through `.get` defaults). The endpoint is
read-only, so the world component is exactly the request record. -/
def productos_check_stock (tok : Token) (pid qty : Int) (w : World) :
    Res CheckOut × World :=
  let sw := w.send (.check pid qty)
  (if ¬ sw.1 then .err 503
   else
     let res := check_stock tok pid qty sw.2.prod
     if res.1 = 401 then .err 401
     else if res.1 = 404 then .err 404
     else if res.1 ≥ 400 then .err res.1
     else .ok (res.2.getD ⟨false, 0, 0⟩),
   sw.2)

/-- Helper `productos_decrease` of the pedidos service: transport failure
raises 503; otherwise the raw response status is handed back to the caller
("el caller decide que hacer con el status"). -/
def productos_decrease (tok : Token) (pid amount : Int) (w : World) :
    Res Nat × World :=
  let sw := w.send (.decrease pid amount)
  if ¬ sw.1 then (.err 503, sw.2)
  else
    (.ok (decrease_stock tok pid amount sw.2.prod).1,
     { sw.2 with prod := (decrease_stock tok pid amount sw.2.prod).2 })

/-- Helper `productos_increase` of the pedidos service: best-effort, returns
`none` on transport failure and never raises. -/
def productos_increase (tok : Token) (pid amount : Int) (w : World) :
    Option Nat × World :=
  let sw := w.send (.increase pid amount)
  if ¬ sw.1 then (none, sw.2)
  else
    (some (increase_stock tok pid amount sw.2.prod).1,
     { sw.2 with prod := (increase_stock tok pid amount sw.2.prod).2 })

/-! ## Pedidos service data model (`src/pedidos/models.py`) -/

/-- Row of `order_items` (the `order_id` key is implicit in the nesting). -/
structure OrderItemRec where
  product_id : Int
  qty : Int
  unit_price : Int
deriving DecidableEq, Repr

/-- Row of `orders`, with its items (`relationship` in the model). -/
structure Order where
  id : Nat
  user_id : Int
  status : String
  total_amount : Int
  items : List OrderItemRec
deriving DecidableEq, Repr

/-- Database of the pedidos service; `nextId` models autoincrementing ids
assigned at `db.flush()`. -/
structure OrderDB where
  orders : List Order
  nextId : Nat
deriving DecidableEq, Repr

/-- `db.query(Order).filter(Order.id == order_id).first()`. -/
def findOrder (db : OrderDB) (oid : Nat) : Option Order :=
  db.orders.find? (fun o => o.id == oid)

/-- Status update `o.status = s; db.commit()` on the row with id `oid`. -/
def setStatus (orders : List Order) (oid : Nat) (s : String) : List Order :=
  orders.map (fun o => if o.id = oid then { o with status := s } else o)

/-- Sum `Σ qty * unit_price` over items (the data-model invariant of §3). -/
def itemsTotal (items : List OrderItemRec) : Int :=
  (items.map (fun it => it.qty * it.unit_price)).sum

/-! ## Pedidos service endpoints (`src/pedidos/app.py`) -/

/-- Enriched line `(product_id, qty, price)` built during check phase. -/
abbrev Line := Int × Int × Int

/-- Step 1 of `create_order`: per line, reject `qty <= 0` with 400, call
`checkStock`, abort with 409 when the check reports `ok = false`, and
accumulate `(product_id, qty, price)`. -/
def checkPhase (tok : Token) : List (Int × Int) → World → List Line →
    Res (List Line) × World
  | [], w, acc => (.ok acc, w)
  | (pid, qty) :: rest, w, acc =>
      if qty ≤ 0 then (.err 400, w)
      else
        let cw := productos_check_stock tok pid qty w
        match cw.1 with
        | .err e => (.err e, cw.2)
        | .ok chk =>
            if ¬ chk.ok then (.err 409, cw.2)
            else checkPhase tok rest cw.2 (acc ++ [(pid, qty, chk.price)])

/-- Step 2 of `create_order`: persist the order with its items and the total
accumulated from the checked prices (`total += price * qty` in line order). -/
def mkOrder (uid : Int) (oid : Nat) (enriched : List Line) : Order :=
  { id := oid
    user_id := uid
    status := "CREATED"
    total_amount := enriched.foldl (fun t e => t + e.2.2 * e.2.1) 0
    items := enriched.map (fun e => ⟨e.1, e.2.1, e.2.2⟩) }

/-- Compensation loop of the 409 branch: iterate the full `enriched` list
from the start, stopping at the first line whose product id equals the
failing line's (`if pid2 == pid: break`), issuing best-effort increases. -/
def compensate (tok : Token) (pid : Int) : List Line → World → World
  | [], w => w
  | (pid2, qty2, _) :: rest, w =>
      if pid2 = pid then w
      else compensate tok pid rest (productos_increase tok pid2 qty2 w).2

/-- Step 3 of `create_order`: sequentially decrease stock per line; on 409
run the compensation loop then raise 409; re-raise 401/404/other ≥ 400;
transport failure has already raised 503 inside `productos_decrease`. -/
def reservePhase (tok : Token) (enriched : List Line) : List Line → World →
    Res Unit × World
  | [], w => (.ok (), w)
  | (pid, qty, _) :: rest, w =>
      let dw := productos_decrease tok pid qty w
      match dw.1 with
      | .err e => (.err e, dw.2)
      | .ok status =>
          if status = 409 then (.err 409, compensate tok pid enriched dw.2)
          else if status = 401 then (.err 401, dw.2)
          else if status = 404 then (.err 404, dw.2)
          else if status ≥ 400 then (.err status, dw.2)
          else reservePhase tok enriched rest dw.2

/-- Endpoint `POST /orders` (`create_order`): auth, emptiness check, check
phase, persistence, reserve phase; any `HTTPException` escaping the reserve
phase marks the persisted order CANCELLED before re-raising. On success the
order is returned as persisted, still in status CREATED. -/
def create_order (tok : Token) (items : List (Int × Int)) (db : OrderDB) (w : World) :
    Res Order × OrderDB × World :=
  if ¬ tok.valid then (.err 401, db, w)
  else if items = [] then (.err 400, db, w)
  else
    let cp := checkPhase tok items w []
    match cp.1 with
    | .err e => (.err e, db, cp.2)
    | .ok enriched =>
        let o := mkOrder tok.sub db.nextId enriched
        let db1 : OrderDB := { orders := db.orders ++ [o], nextId := db.nextId + 1 }
        let rp := reservePhase tok enriched enriched cp.2
        match rp.1 with
        | .ok _ => (.ok o, db1, rp.2)
        | .err e =>
            (.err e, { db1 with orders := setStatus db1.orders o.id "CANCELLED" }, rp.2)

/-- Endpoint `GET /orders/{id}` (`get_order`): 404 when absent, 403 unless
the caller owns the order or is admin; pure read. -/
def get_order (tok : Token) (oid : Nat) (db : OrderDB) : Res Order :=
  if ¬ tok.valid then .err 401
  else
    match findOrder db oid with
    | none => .err 404
    | some o =>
        if tok.role ≠ "admin" ∧ o.user_id ≠ tok.sub then .err 403
        else .ok o

/-- Inventory loop of `cancel_order`: best-effort increase per item. -/
def increaseAll (tok : Token) : List OrderItemRec → World → World
  | [], w => w
  | it :: rest, w => increaseAll tok rest (productos_increase tok it.product_id it.qty w).2

/-- Endpoint `POST /orders/{id}/cancel` (`cancel_order`): 404 when absent,
403 unless owner or admin, 409 unless status is CREATED; then best-effort
increases for every item, status CANCELLED. -/
def cancel_order (tok : Token) (oid : Nat) (db : OrderDB) (w : World) :
    Res Order × OrderDB × World :=
  if ¬ tok.valid then (.err 401, db, w)
  else
    match findOrder db oid with
    | none => (.err 404, db, w)
    | some o =>
        if tok.role ≠ "admin" ∧ o.user_id ≠ tok.sub then (.err 403, db, w)
        else if o.status ≠ "CREATED" then (.err 409, db, w)
        else
          let w1 := increaseAll tok o.items w
          (.ok { o with status := "CANCELLED" },
           { db with orders := setStatus db.orders oid "CANCELLED" }, w1)

/-- Endpoint `POST /orders/{id}/confirm` (`confirm_order`): 404 when absent,
403 unless owner or admin, 409 unless status is CREATED; pure status
transition, no inventory calls. -/
def confirm_order (tok : Token) (oid : Nat) (db : OrderDB) : Res Order × OrderDB :=
  if ¬ tok.valid then (.err 401, db)
  else
    match findOrder db oid with
    | none => (.err 404, db)
    | some o =>
        if tok.role ≠ "admin" ∧ o.user_id ≠ tok.sub then (.err 403, db)
        else if o.status ≠ "CREATED" then (.err 409, db)
        else (.ok { o with status := "CONFIRMED" },
              { db with orders := setStatus db.orders oid "CONFIRMED" })

/-! ## Concrete fixtures used by witnesses and counterexamples -/

/-- Valid token of user 7 with the admin role. -/
def tokAdmin : Token := ⟨true, 7, "admin"⟩

/-- Valid token of user 7 with the plain user role. -/
def tokUser7 : Token := ⟨true, 7, "user"⟩

/-- Valid token of user 8 with the plain user role. -/
def tokUser8 : Token := ⟨true, 8, "user"⟩

/-- Inventory with one active product: id 1, price 100, 5 units. -/
def psSingle : ProdState := ⟨[⟨1, 100, true⟩], [⟨1, 5⟩]⟩

/-- Empty order database, next id 1. -/
def dbEmpty : OrderDB := ⟨[], 1⟩

/-- World around `psSingle` with perfect transport and empty trace. -/
def wSingle : World := ⟨psSingle, [], []⟩

/-! ## Structural lemmas about the network helpers -/

theorem World.send_snd (w : World) (c : InvCall) :
    (w.send c).2 = { w with transport := w.transport.tail, trace := w.trace ++ [c] } := rfl

theorem productos_check_stock_snd (tok : Token) (pid qty : Int) (w : World) :
    (productos_check_stock tok pid qty w).2 =
      { w with transport := w.transport.tail, trace := w.trace ++ [.check pid qty] } := rfl

theorem productos_decrease_snd_trace (tok : Token) (pid amount : Int) (w : World) :
    (productos_decrease tok pid amount w).2.trace = w.trace ++ [.decrease pid amount] := by
  simp only [productos_decrease]
  split <;> rfl

theorem productos_increase_snd_trace (tok : Token) (pid amount : Int) (w : World) :
    (productos_increase tok pid amount w).2.trace = w.trace ++ [.increase pid amount] := by
  simp only [productos_increase]
  split <;> rfl

/-! ## Structural lemmas about the check phase -/

/-- The check phase never mutates inventory and issues only check requests. -/
theorem checkPhase_world (tok : Token) :
    ∀ (items : List (Int × Int)) (w : World) (acc : List Line),
      (checkPhase tok items w acc).2.prod = w.prod ∧
      ∃ t, (checkPhase tok items w acc).2.trace = w.trace ++ t ∧
        t.all InvCall.isCheck = true := by
  intro items
  induction items with
  | nil =>
      intro w acc
      exact ⟨rfl, [], by simp [checkPhase], rfl⟩
  | cons hd rest ih =>
      intro w acc
      obtain ⟨pid, qty⟩ := hd
      simp only [checkPhase]
      split
      · exact ⟨rfl, [], by simp, rfl⟩
      · split
        · exact ⟨rfl, [.check pid qty], rfl, rfl⟩
        · split
          · exact ⟨rfl, [.check pid qty], rfl, rfl⟩
          · rename_i chk heqchk hok
            obtain ⟨hprod, t, htr, hall⟩ :=
              ih (productos_check_stock tok pid qty w).2 (acc ++ [(pid, qty, chk.price)])
            refine ⟨hprod, .check pid qty :: t, ?_, ?_⟩
            · rw [htr, productos_check_stock_snd]
              simp
            · simpa [InvCall.isCheck] using hall

/-- Splitting the check phase at a list append. -/
theorem checkPhase_append_ok (tok : Token) :
    ∀ (xs ys : List (Int × Int)) (w w1 : World) (acc acc1 : List Line),
      checkPhase tok xs w acc = (.ok acc1, w1) →
      checkPhase tok (xs ++ ys) w acc = checkPhase tok ys w1 acc1 := by
  intro xs
  induction xs with
  | nil =>
      intro ys w w1 acc acc1 h
      simp only [checkPhase, Prod.mk.injEq, Res.ok.injEq] at h
      obtain ⟨rfl, rfl⟩ := h
      simp [checkPhase]
  | cons hd rest ih =>
      intro ys w w1 acc acc1 h
      obtain ⟨pid, qty⟩ := hd
      simp only [checkPhase, List.cons_append] at h ⊢
      by_cases hqty : qty ≤ 0
      · rw [if_pos hqty] at h
        simp at h
      · rw [if_neg hqty] at h ⊢
        cases hcw : (productos_check_stock tok pid qty w).1 with
        | err e =>
            simp only [hcw] at h
            simp at h
        | ok chk =>
            simp only [hcw] at h ⊢
            by_cases hok : chk.ok
            · simp only [hok] at h ⊢
              exact ih ys _ w1 _ acc1 h
            · simp only [hok] at h
              simp at h

/-- A successful check phase enriches exactly the given lines. -/
theorem checkPhase_ok_length (tok : Token) :
    ∀ (items : List (Int × Int)) (w w1 : World) (acc acc1 : List Line),
      checkPhase tok items w acc = (.ok acc1, w1) →
      acc1.length = acc.length + items.length := by
  intro items
  induction items with
  | nil =>
      intro w w1 acc acc1 h
      simp only [checkPhase] at h
      cases h
      simp
  | cons hd rest ih =>
      intro w w1 acc acc1 h
      obtain ⟨pid, qty⟩ := hd
      simp only [checkPhase] at h
      split at h
      · cases h
      · split at h
        · cases h
        · split at h
          · cases h
          · have := ih _ w1 _ acc1 h
            simp [this]
            omega

/-! ## Structural lemmas about the reserve phase and the endpoints -/

/-- A reserve phase failing with a non-Conflict error issues only decrease
requests: the compensation loop runs exclusively in the 409 branch. -/
theorem reservePhase_err_ne409_trace (tok : Token) (enriched : List Line) :
    ∀ (rest : List Line) (w w2 : World) (e : Nat),
      reservePhase tok enriched rest w = (.err e, w2) → e ≠ 409 →
      ∃ t, w2.trace = w.trace ++ t ∧ t.all InvCall.isDecrease = true := by
  intro rest
  induction rest with
  | nil =>
      intro w w2 e h h409
      simp [reservePhase] at h
  | cons hd tl ih =>
      intro w w2 e h h409
      obtain ⟨pid, qty, pr⟩ := hd
      simp only [reservePhase] at h
      cases hdw : (productos_decrease tok pid qty w).1 with
      | err e0 =>
          simp only [hdw, Prod.mk.injEq, Res.err.injEq] at h
          obtain ⟨rfl, rfl⟩ := h
          exact ⟨[.decrease pid qty], productos_decrease_snd_trace tok pid qty w, rfl⟩
      | ok status =>
          simp only [hdw] at h
          by_cases h409s : status = 409
          · rw [if_pos h409s] at h
            simp only [Prod.mk.injEq, Res.err.injEq] at h
            omega
          · rw [if_neg h409s] at h
            by_cases h401 : status = 401
            · rw [if_pos h401] at h
              simp only [Prod.mk.injEq, Res.err.injEq] at h
              obtain ⟨rfl, rfl⟩ := h
              exact ⟨[.decrease pid qty], productos_decrease_snd_trace tok pid qty w, rfl⟩
            · rw [if_neg h401] at h
              by_cases h404 : status = 404
              · rw [if_pos h404] at h
                simp only [Prod.mk.injEq, Res.err.injEq] at h
                obtain ⟨rfl, rfl⟩ := h
                exact ⟨[.decrease pid qty], productos_decrease_snd_trace tok pid qty w, rfl⟩
              · rw [if_neg h404] at h
                by_cases hge : status ≥ 400
                · rw [if_pos hge] at h
                  simp only [Prod.mk.injEq, Res.err.injEq] at h
                  obtain ⟨rfl, rfl⟩ := h
                  exact ⟨[.decrease pid qty], productos_decrease_snd_trace tok pid qty w, rfl⟩
                · rw [if_neg hge] at h
                  obtain ⟨t, htr, hall⟩ := ih _ w2 e h h409
                  refine ⟨.decrease pid qty :: t, ?_, ?_⟩
                  · rw [htr, productos_decrease_snd_trace]
                    simp
                  · simpa [InvCall.isDecrease] using hall

/-- Unfolding `create_order` when the reserve phase raises: the error is
re-raised after the order status is set to CANCELLED. -/
theorem create_order_reserveErr (tok : Token) (items : List (Int × Int)) (db : OrderDB)
    (w w1 w2 : World) (enriched : List Line) (e : Nat)
    (hval : tok.valid = true) (hne : items ≠ [])
    (hchk : checkPhase tok items w [] = (.ok enriched, w1))
    (hres : reservePhase tok enriched enriched w1 = (.err e, w2)) :
    create_order tok items db w =
      (.err e,
       ⟨setStatus (db.orders ++ [mkOrder tok.sub db.nextId enriched]) db.nextId "CANCELLED",
        db.nextId + 1⟩, w2) := by
  have hchk1 : (checkPhase tok items w []).1 = .ok enriched := by rw [hchk]
  have hchk2 : (checkPhase tok items w []).2 = w1 := by rw [hchk]
  have hres1 : (reservePhase tok enriched enriched (checkPhase tok items w []).2).1 = .err e := by
    rw [hchk2, hres]
  have hres2 : (reservePhase tok enriched enriched (checkPhase tok items w []).2).2 = w2 := by
    rw [hchk2, hres]
  simp [create_order, hval, hne, hchk1, hres1, hres2, mkOrder]

/-- Unfolding `create_order` when every phase succeeds. -/
theorem create_order_ok (tok : Token) (items : List (Int × Int)) (db : OrderDB)
    (w w1 w2 : World) (enriched : List Line)
    (hval : tok.valid = true) (hne : items ≠ [])
    (hchk : checkPhase tok items w [] = (.ok enriched, w1))
    (hres : reservePhase tok enriched enriched w1 = (.ok (), w2)) :
    create_order tok items db w =
      (.ok (mkOrder tok.sub db.nextId enriched),
       ⟨db.orders ++ [mkOrder tok.sub db.nextId enriched], db.nextId + 1⟩, w2) := by
  have hchk1 : (checkPhase tok items w []).1 = .ok enriched := by rw [hchk]
  have hchk2 : (checkPhase tok items w []).2 = w1 := by rw [hchk]
  have hres1 : (reservePhase tok enriched enriched (checkPhase tok items w []).2).1 = .ok () := by
    rw [hchk2, hres]
  have hres2 : (reservePhase tok enriched enriched (checkPhase tok items w []).2).2 = w2 := by
    rw [hchk2, hres]
  simp [create_order, hval, hne, hchk1, hres1, hres2]

/-- The order database after `create_order` is unchanged, extended by the
new order, or extended and then marked CANCELLED. -/
theorem create_order_db_shape (tok : Token) (items : List (Int × Int)) (db : OrderDB)
    (w : World) :
    (create_order tok items db w).2.1 = db ∨
    ∃ enriched,
      (create_order tok items db w).2.1.orders =
          db.orders ++ [mkOrder tok.sub db.nextId enriched] ∨
      (create_order tok items db w).2.1.orders =
          setStatus (db.orders ++ [mkOrder tok.sub db.nextId enriched]) db.nextId "CANCELLED" := by
  by_cases hval : tok.valid
  · by_cases hne : items = []
    · left
      simp [create_order, hval, hne]
    · cases hchk : (checkPhase tok items w []).1 with
      | err e =>
          left
          simp [create_order, hval, hne, hchk]
      | ok enriched =>
          cases hres :
              (reservePhase tok enriched enriched (checkPhase tok items w []).2).1 with
          | ok u =>
              right
              exact ⟨enriched, Or.inl (by simp [create_order, hval, hne, hchk, hres])⟩
          | err e =>
              right
              exact ⟨enriched,
                Or.inr (by simp [create_order, hval, hne, hchk, hres, mkOrder])⟩
  · left
    simp [create_order, hval]

/-- The order database after `cancel_order` is unchanged or has exactly the
target row marked CANCELLED. -/
theorem cancel_order_db_shape (tok : Token) (oid : Nat) (db : OrderDB) (w : World) :
    (cancel_order tok oid db w).2.1 = db ∨
    (cancel_order tok oid db w).2.1.orders = setStatus db.orders oid "CANCELLED" := by
  by_cases hval : tok.valid
  · cases hf : findOrder db oid with
    | none =>
        left
        simp [cancel_order, hval, hf]
    | some o =>
        by_cases hauth : tok.role ≠ "admin" ∧ o.user_id ≠ tok.sub
        · left
          simp [cancel_order, hval, hf, hauth]
        · by_cases hst : o.status ≠ "CREATED"
          · left
            simp [cancel_order, hval, hf, hauth, hst]
          · right
            simp [cancel_order, hval, hf, hauth, hst]
  · left
    simp [cancel_order, hval]

/-- The order database after `confirm_order` is unchanged or has exactly the
target row marked CONFIRMED. -/
theorem confirm_order_db_shape (tok : Token) (oid : Nat) (db : OrderDB) :
    (confirm_order tok oid db).2 = db ∨
    (confirm_order tok oid db).2.orders = setStatus db.orders oid "CONFIRMED" := by
  by_cases hval : tok.valid
  · cases hf : findOrder db oid with
    | none =>
        left
        simp [confirm_order, hval, hf]
    | some o =>
        by_cases hauth : tok.role ≠ "admin" ∧ o.user_id ≠ tok.sub
        · left
          simp [confirm_order, hval, hf, hauth]
        · by_cases hst : o.status ≠ "CREATED"
          · left
            simp [confirm_order, hval, hf, hauth, hst]
          · right
            simp [confirm_order, hval, hf, hauth, hst]
  · left
    simp [confirm_order, hval]

/-- A status update preserves every field of a row except `status`. -/
theorem setStatus_mem {orders : List Order} {oid : Nat} {s : String} {o : Order}
    (h : o ∈ setStatus orders oid s) :
    ∃ o0 ∈ orders, o.id = o0.id ∧ o.user_id = o0.user_id ∧
      o.total_amount = o0.total_amount ∧ o.items = o0.items := by
  rcases List.mem_map.1 h with ⟨o0, h0, heq⟩
  subst heq
  refine ⟨o0, h0, ?_⟩
  by_cases hid : o0.id = oid
  · rw [if_pos hid]
    exact ⟨rfl, rfl, rfl, rfl⟩
  · rw [if_neg hid]
    exact ⟨rfl, rfl, rfl, rfl⟩

/-- Marking the freshly appended order: the last row is that order with the
new status. -/
theorem setStatus_concat_getLast (orders : List Order) (o : Order) (s : String) :
    (setStatus (orders ++ [o]) o.id s).getLast? = some { o with status := s } := by
  simp [setStatus, List.getLast?_concat]

/-- Left fold of the running total, related to the item sum. -/
theorem foldl_total :
    ∀ (l : List Line) (a : Int),
      l.foldl (fun t e => t + e.2.2 * e.2.1) a =
        a + itemsTotal (l.map fun e => ⟨e.1, e.2.1, e.2.2⟩) := by
  intro l
  induction l with
  | nil =>
      intro a
      simp [itemsTotal]
  | cons x xs ih =>
      intro a
      simp only [List.foldl_cons, List.map_cons, itemsTotal, List.map, List.sum_cons] at ih ⊢
      rw [ih]
      ring

/-- The persisted total equals the item sum `Σ qty * unit_price`. -/
theorem mkOrder_total (uid : Int) (oid : Nat) (enriched : List Line) :
    (mkOrder uid oid enriched).total_amount = itemsTotal (mkOrder uid oid enriched).items := by
  simp [mkOrder, foldl_total]

/-- Inventory with one active product: id 1, price 100, and zero stock. -/
def psNoStock : ProdState := ⟨[⟨1, 100, true⟩], [⟨1, 0⟩]⟩

/-- World around `psNoStock` with perfect transport and empty trace. -/
def wNoStock : World := ⟨psNoStock, [], []⟩

/-! ## Claims -/

/-- C1: the claim states that when the decrease for line k returns
InsufficientStock after lines 1..k-1 were applied, a compensating increase
is issued for every already-decreased line, the order is CANCELLED and 409
is returned. The code contradicts its own comment (revertir lo ya
reservado): the compensation loop breaks at the first line whose product id
equals the failing line id, so with the duplicate-product order
[(1, 3), (1, 3)] over 5 units, line 1 is decreased, line 2 conflicts, and
no compensating increase at all is issued: stock is left at 2 instead of
being restored to 5, while the order is CANCELLED and 409 returned. -/
theorem C1_duplicate_pid_saga_eval :
    create_order tokAdmin [(1, 3), (1, 3)] dbEmpty ⟨⟨[⟨1, 10, true⟩], [⟨1, 5⟩]⟩, [], []⟩ =
      (.err 409,
       ⟨[⟨1, 7, "CANCELLED", 60, [⟨1, 3, 10⟩, ⟨1, 3, 10⟩]⟩], 2⟩,
       ⟨⟨[⟨1, 10, true⟩], [⟨1, 2⟩]⟩, [],
        [.check 1 3, .check 1 3, .decrease 1 3, .decrease 1 3]⟩) ∧
    ([.check 1 3, .check 1 3, .decrease 1 3, .decrease 1 3] :
        List InvCall).countP (fun c => c.isIncrease) = 0 := by
  decide

/-- C2: when some line of the request has its stock check report
insufficient availability (a 200 body with ok = false, after all earlier
lines passed), `create_order` aborts with Conflict 409 before any
persistence or reservation: the order database is returned unchanged, the
inventory state of every product is unchanged, and only check requests were
issued. -/
theorem C2_check_failure_aborts_all (tok : Token) (items : List (Int × Int))
    (db : OrderDB) (w : World)
    (pre post : List (Int × Int)) (pid qty : Int) (acc : List Line)
    (w0 : World) (chk : CheckOut)
    (hval : tok.valid = true)
    (hitems : items = pre ++ (pid, qty) :: post)
    (hpre : checkPhase tok pre w [] = (.ok acc, w0))
    (hqty : ¬ qty ≤ 0)
    (hchk : (productos_check_stock tok pid qty w0).1 = .ok chk)
    (hok : chk.ok = false) :
    create_order tok items db w =
      (.err 409, db, (productos_check_stock tok pid qty w0).2) ∧
    (productos_check_stock tok pid qty w0).2.prod = w.prod ∧
    ∃ t, (productos_check_stock tok pid qty w0).2.trace = w.trace ++ t ∧
      t.all InvCall.isCheck = true := by
  subst hitems
  have hstep : checkPhase tok ((pid, qty) :: post) w0 acc =
      (.err 409, (productos_check_stock tok pid qty w0).2) := by
    simp [checkPhase, hqty, hchk, hok]
  have hk : checkPhase tok (pre ++ (pid, qty) :: post) w [] =
      (.err 409, (productos_check_stock tok pid qty w0).2) := by
    rw [checkPhase_append_ok tok pre _ w w0 [] acc hpre, hstep]
  have hne : pre ++ (pid, qty) :: post ≠ [] := by simp
  have hw := checkPhase_world tok (pre ++ (pid, qty) :: post) w []
  rw [hk] at hw
  have hk1 : (checkPhase tok (pre ++ (pid, qty) :: post) w []).1 = .err 409 := by rw [hk]
  have hk2 : (checkPhase tok (pre ++ (pid, qty) :: post) w []).2 =
      (productos_check_stock tok pid qty w0).2 := by rw [hk]
  refine ⟨?_, hw.1, hw.2⟩
  simp [create_order, hval, hne, hk1, hk2]

/-- C2 witness: order of one unit of product 1 while its stock is zero. -/
theorem C2_check_failure_aborts_all_witness :
    create_order tokAdmin [(1, 1)] dbEmpty wNoStock =
      (.err 409, dbEmpty, ⟨psNoStock, [], [.check 1 1]⟩) ∧
    (⟨psNoStock, [], [.check 1 1]⟩ : World).prod = wNoStock.prod := by
  have h := C2_check_failure_aborts_all tokAdmin [(1, 1)] dbEmpty wNoStock
    [] [] 1 1 [] wNoStock ⟨false, 0, 100⟩ rfl rfl rfl (by decide) (by decide) rfl
  exact ⟨h.1, h.2.1⟩

/-- C4 counterexample: in the claimed scenario (request [(1, 2)], stock 5,
price 100, everything downstream succeeding) the returned representation
has status CREATED, not CONFIRMED: the code never marks the order CONFIRMED
after a fully successful reservation. -/
theorem C4_counterexample :
    (create_order tokAdmin [(1, 2)] dbEmpty wSingle).1 =
      .ok ⟨1, 7, "CREATED", 200, [⟨1, 2, 100⟩]⟩ ∧
    ("CREATED" : String) ≠ "CONFIRMED" := by
  decide

/-- C4 amended: for the request [(1, 2)] when product 1 has 5 units at
price 100 and every downstream call succeeds, `create_order` creates the
order, returns it with status CREATED (left pending an explicit confirm
step) and totalAmount 200, and the available stock of product 1 becomes 3. -/
theorem C4_amended_scenario :
    create_order tokAdmin [(1, 2)] dbEmpty wSingle =
      (.ok ⟨1, 7, "CREATED", 200, [⟨1, 2, 100⟩]⟩,
       ⟨[⟨1, 7, "CREATED", 200, [⟨1, 2, 100⟩]⟩], 2⟩,
       ⟨⟨[⟨1, 100, true⟩], [⟨1, 3⟩]⟩, [], [.check 1 2, .decrease 1 2]⟩) := by
  decide

/-- C5 counterexample: a single transport failure of the decrease call
yields 503 immediately even though the network recovers for the very next
request (schedule [false, true]): with any retry at all the call would have
succeeded, so no bounded retry with backoff exists. -/
theorem C5_counterexample :
    (productos_decrease tokAdmin 1 1 ⟨psSingle, [false, true], []⟩).1 = .err 503 ∧
    (productos_decrease tokAdmin 1 1 ⟨psSingle, [false, true], []⟩).2.transport = [true] ∧
    (productos_decrease tokAdmin 1 1 ⟨psSingle, [true], []⟩).1 = .ok 200 := by
  decide

/-- C5 amended: `productos_decrease` performs exactly one attempt: it
consumes one transport slot, records one decrease request, yields
Unavailable (503) immediately on a transport failure with no retry and no
backoff, and otherwise returns the application-level outcome of that single
attempt to the caller. -/
theorem C5_amended_single_attempt (tok : Token) (pid amount : Int) (w : World) :
    (productos_decrease tok pid amount w).2.transport = w.transport.tail ∧
    (productos_decrease tok pid amount w).2.trace = w.trace ++ [.decrease pid amount] ∧
    (productos_decrease tok pid amount w).1 =
      (if w.transport.headD true then .ok (decrease_stock tok pid amount w.prod).1
       else .err 503) ∧
    (productos_decrease tok pid amount w).2.prod =
      (if w.transport.headD true then (decrease_stock tok pid amount w.prod).2
       else w.prod) := by
  cases ht : w.transport.head?.getD true with
  | true => simp [productos_decrease, World.send, List.headD_eq_head?, ht]
  | false => simp [productos_decrease, World.send, List.headD_eq_head?, ht]

/-- C8 counterexample: the request [(1, 1), (2, 0)] contains a line with
qty 0, yet with product 1 out of stock the call fails with 409 from the
stock check of line 1, not with ValidationError 400: per-line validation is
interleaved with the stock checks. -/
theorem C8_counterexample :
    (create_order tokAdmin [(1, 1), (2, 0)] dbEmpty wNoStock).1 = .err 409 ∧
    (create_order tokAdmin [(1, 1), (2, 0)] dbEmpty wNoStock).1 ≠ .err 400 ∧
    (0 : Int) ≤ 0 := by
  decide

/-- C8 amended: an empty request always fails with ValidationError 400
before any write; a request containing a line with qty ≤ 0 fails with 400
provided every earlier line passed its stock check (per-line validation is
interleaved with the checks); in either case no order is persisted, no
stock is mutated, and no decrease or increase request is issued. -/
theorem C8_amended_validation (tok : Token) (items : List (Int × Int))
    (db : OrderDB) (w : World)
    (hval : tok.valid = true)
    (hcase : items = [] ∨
      ∃ pre pid qty post acc w1, items = pre ++ (pid, qty) :: post ∧ qty ≤ 0 ∧
        checkPhase tok pre w [] = (.ok acc, w1)) :
    (create_order tok items db w).1 = .err 400 ∧
    (create_order tok items db w).2.1 = db ∧
    (create_order tok items db w).2.2.prod = w.prod ∧
    ∃ t, (create_order tok items db w).2.2.trace = w.trace ++ t ∧
      t.all InvCall.isCheck = true := by
  rcases hcase with rfl | ⟨pre, pid, qty, post, acc, w1, rfl, hqty, hpre⟩
  · exact ⟨by simp [create_order, hval], by simp [create_order, hval],
      by simp [create_order, hval], [], by simp [create_order, hval], rfl⟩
  · have hne : pre ++ (pid, qty) :: post ≠ [] := by simp
    have hall : checkPhase tok (pre ++ (pid, qty) :: post) w [] =
        checkPhase tok ((pid, qty) :: post) w1 acc :=
      checkPhase_append_ok tok pre _ w w1 [] acc hpre
    have hstep : checkPhase tok ((pid, qty) :: post) w1 acc = (.err 400, w1) := by
      simp [checkPhase, hqty]
    rw [hstep] at hall
    have hw := checkPhase_world tok pre w []
    rw [hpre] at hw
    have hk1 : (checkPhase tok (pre ++ (pid, qty) :: post) w []).1 = .err 400 := by
      rw [hall]
    have hk2 : (checkPhase tok (pre ++ (pid, qty) :: post) w []).2 = w1 := by
      rw [hall]
    refine ⟨by simp [create_order, hval, hne, hk1], by simp [create_order, hval, hne, hk1],
      ?_, ?_⟩
    · have : (create_order tok (pre ++ (pid, qty) :: post) db w).2.2 = w1 := by
        simp [create_order, hval, hne, hk1, hk2]
      rw [this]
      exact hw.1
    · obtain ⟨t, htr, hta⟩ := hw.2
      have : (create_order tok (pre ++ (pid, qty) :: post) db w).2.2 = w1 := by
        simp [create_order, hval, hne, hk1, hk2]
      exact ⟨t, by rw [this]; exact htr, hta⟩

/-- C8 witness: a single line with qty 0 under a valid token. -/
theorem C8_amended_validation_witness :
    (create_order tokAdmin [(1, 0)] dbEmpty wSingle).1 = .err 400 ∧
    (create_order tokAdmin [(1, 0)] dbEmpty wSingle).2.1 = dbEmpty := by
  have h := C8_amended_validation tokAdmin [(1, 0)] dbEmpty wSingle rfl
    (Or.inr ⟨[], 1, 0, [], [], wSingle, rfl, by decide, rfl⟩)
  exact ⟨h.1, h.2.1⟩

/-- C3: when the reserve phase fails with any non-Conflict error (401, 404,
503 after a transport failure, or any other status ≥ 400) after a prefix of
lines was already decreased, `create_order` stops immediately, re-raises
that error, marks the persisted order CANCELLED, and issues no compensating
increase: every request issued during reservation is a decrease, so stock
already reserved stays decremented. -/
theorem C3_non_conflict_stops_without_compensation (tok : Token)
    (items : List (Int × Int)) (db : OrderDB) (w w1 w2 : World)
    (enriched : List Line) (e : Nat)
    (hval : tok.valid = true) (hne : items ≠ [])
    (hchk : checkPhase tok items w [] = (.ok enriched, w1))
    (hres : reservePhase tok enriched enriched w1 = (.err e, w2)) (h409 : e ≠ 409) :
    (create_order tok items db w).1 = .err e ∧
    (create_order tok items db w).2.1.orders.getLast? =
      some { mkOrder tok.sub db.nextId enriched with status := "CANCELLED" } ∧
    (create_order tok items db w).2.2 = w2 ∧
    ∃ t, w2.trace = w1.trace ++ t ∧ t.all InvCall.isDecrease = true := by
  have hco := create_order_reserveErr tok items db w w1 w2 enriched e hval hne hchk hres
  rw [hco]
  refine ⟨rfl, ?_, rfl,
    reservePhase_err_ne409_trace tok enriched enriched w1 w2 e hres h409⟩
  simpa [mkOrder] using
    setStatus_concat_getLast db.orders (mkOrder tok.sub db.nextId enriched) "CANCELLED"

/-- C3 witness: a valid non-admin token passes the check but its decrease is
rejected with 403 by the inventory service; the order ends CANCELLED and no
increase is issued. -/
theorem C3_non_conflict_witness :
    (create_order tokUser7 [(1, 2)] dbEmpty wSingle).1 = .err 403 ∧
    (create_order tokUser7 [(1, 2)] dbEmpty wSingle).2.1.orders.getLast? =
      some ⟨1, 7, "CANCELLED", 200, [⟨1, 2, 100⟩]⟩ := by
  have h := C3_non_conflict_stops_without_compensation tokUser7 [(1, 2)] dbEmpty wSingle
    ⟨psSingle, [], [.check 1 2]⟩ ⟨psSingle, [], [.check 1 2, .decrease 1 2]⟩
    [(1, 2, 100)] 403 rfl (by decide) (by decide) (by decide) (by decide)
  exact ⟨h.1, h.2.1⟩

/-- C7: CONFIRMED and CANCELLED are terminal: on an order whose status is
not CREATED, cancel and confirm leave the database and the outside world
(hence inventory and call trace) unchanged and always fail, and for an
authorized caller (owner or admin with a valid token) the failure is
Conflict 409. -/
theorem C7_terminal_states (tok : Token) (oid : Nat) (db : OrderDB) (w : World) (o : Order)
    (hfind : findOrder db oid = some o) (hst : o.status ≠ "CREATED") :
    (cancel_order tok oid db w).2.1 = db ∧
    (cancel_order tok oid db w).2.2 = w ∧
    (cancel_order tok oid db w).1.isErr = true ∧
    (confirm_order tok oid db).2 = db ∧
    (confirm_order tok oid db).1.isErr = true ∧
    (tok.valid = true → (tok.role = "admin" ∨ tok.sub = o.user_id) →
      (cancel_order tok oid db w).1 = .err 409 ∧ (confirm_order tok oid db).1 = .err 409) := by
  by_cases hval : tok.valid
  · by_cases hauth : tok.role ≠ "admin" ∧ o.user_id ≠ tok.sub
    · refine ⟨?_, ?_, ?_, ?_, ?_, fun hv hadm => ?_⟩
      · simp [cancel_order, hval, hfind, hauth]
      · simp [cancel_order, hval, hfind, hauth]
      · simp [cancel_order, hval, hfind, hauth, Res.isErr]
      · simp [confirm_order, hval, hfind, hauth]
      · simp [confirm_order, hval, hfind, hauth, Res.isErr]
      · rcases hadm with h | h
        · exact absurd h hauth.1
        · exact absurd h.symm hauth.2
    · refine ⟨?_, ?_, ?_, ?_, ?_, fun hv hadm => ⟨?_, ?_⟩⟩ <;>
        simp [cancel_order, confirm_order, hval, hfind, hauth, hst, Res.isErr]
  · refine ⟨?_, ?_, ?_, ?_, ?_, fun hv hadm => absurd hv hval⟩ <;>
      simp [cancel_order, confirm_order, hval, Res.isErr]

/-- Order owned by user 7, already CONFIRMED. -/
def oConf : Order := ⟨1, 7, "CONFIRMED", 200, [⟨1, 2, 100⟩]⟩

/-- Database holding only `oConf`. -/
def dbConf : OrderDB := ⟨[oConf], 2⟩

/-- C7 witness: cancelling and confirming a CONFIRMED order as its owner
with the admin role fails with 409 and changes nothing. -/
theorem C7_terminal_states_witness :
    (cancel_order tokAdmin 1 dbConf wSingle).1 = .err 409 ∧
    (confirm_order tokAdmin 1 dbConf).1 = .err 409 ∧
    (cancel_order tokAdmin 1 dbConf wSingle).2.1 = dbConf ∧
    (cancel_order tokAdmin 1 dbConf wSingle).2.2 = wSingle := by
  have h := C7_terminal_states tokAdmin 1 dbConf wSingle oConf (by decide) (by decide)
  exact ⟨(h.2.2.2.2.2 rfl (Or.inl rfl)).1, (h.2.2.2.2.2 rfl (Or.inl rfl)).2, h.1, h.2.1⟩

/-- C9: an authenticated caller who is neither the owner nor admin gets 403
from single-order read, cancel and confirm, with database and world
untouched; a valid admin token is never rejected with 403 and reads any
order regardless of ownership. -/
theorem C9_ownership_rule (tok tokA : Token) (oid : Nat) (db : OrderDB) (w : World)
    (o : Order) (hfind : findOrder db oid = some o)
    (hval : tok.valid = true) (hrole : tok.role ≠ "admin") (hsub : tok.sub ≠ o.user_id) :
    get_order tok oid db = .err 403 ∧
    cancel_order tok oid db w = (.err 403, db, w) ∧
    confirm_order tok oid db = (.err 403, db) ∧
    (tokA.valid = true → tokA.role = "admin" →
      get_order tokA oid db = .ok o ∧
      (cancel_order tokA oid db w).1 ≠ .err 403 ∧
      (confirm_order tokA oid db).1 ≠ .err 403) := by
  have hauth : tok.role ≠ "admin" ∧ o.user_id ≠ tok.sub := ⟨hrole, fun h => hsub h.symm⟩
  refine ⟨?_, ?_, ?_, fun hv ha => ⟨?_, ?_, ?_⟩⟩
  · simp [get_order, hval, hfind, hauth]
  · simp [cancel_order, hval, hfind, hauth]
  · simp [confirm_order, hval, hfind, hauth]
  · simp [get_order, hv, hfind, ha]
  · by_cases hst : o.status ≠ "CREATED"
    · simp [cancel_order, hv, hfind, ha, hst]
    · simp [cancel_order, hv, hfind, ha, hst]
  · by_cases hst : o.status ≠ "CREATED"
    · simp [confirm_order, hv, hfind, ha, hst]
    · simp [confirm_order, hv, hfind, ha, hst]

/-- Order owned by user 7, still CREATED. -/
def oCreated : Order := ⟨1, 7, "CREATED", 200, [⟨1, 2, 100⟩]⟩

/-- Database holding only `oCreated`. -/
def dbCreated : OrderDB := ⟨[oCreated], 2⟩

/-- C9 witness: user 8 cannot read or cancel the order of user 7; an admin
token reads it. -/
theorem C9_ownership_rule_witness :
    get_order tokUser8 1 dbCreated = .err 403 ∧
    cancel_order tokUser8 1 dbCreated wSingle = (.err 403, dbCreated, wSingle) ∧
    get_order tokAdmin 1 dbCreated = .ok oCreated := by
  have h := C9_ownership_rule tokUser8 tokAdmin 1 dbCreated wSingle oCreated
    (by decide) rfl (by decide) (by decide)
  exact ⟨h.1, h.2.1, (h.2.2.2 rfl rfl).1⟩

/-- C10: the stock-mutation endpoints require the admin role: under a valid
non-admin token both decrease and increase return 403 with stock unchanged;
consequently a `create_order` whose pre-checks all pass under such a token
has its first decrease rejected with 403 (transport permitting), re-raises
403, leaves the persisted order CANCELLED, and mutates no stock at all. -/
theorem C10_admin_only_mutation (tok : Token) (pid amount : Int) (ps : ProdState)
    (items : List (Int × Int)) (db : OrderDB) (w w1 : World) (enriched : List Line)
    (hval : tok.valid = true) (hrole : tok.role ≠ "admin") :
    decrease_stock tok pid amount ps = (403, ps) ∧
    increase_stock tok pid amount ps = (403, ps) ∧
    (items ≠ [] → checkPhase tok items w [] = (.ok enriched, w1) →
      w1.transport.headD true = true →
      (create_order tok items db w).1 = .err 403 ∧
      (create_order tok items db w).2.1.orders.getLast? =
        some { mkOrder tok.sub db.nextId enriched with status := "CANCELLED" } ∧
      (create_order tok items db w).2.2.prod = w.prod) := by
  refine ⟨by simp [decrease_stock, hval, hrole], by simp [increase_stock, hval, hrole],
    fun hne hchk htr => ?_⟩
  rw [List.headD_eq_head?] at htr
  have hlen := checkPhase_ok_length tok items w w1 [] enriched hchk
  have henr : enriched ≠ [] := by
    intro h
    subst h
    simp at hlen
    exact hne (List.length_eq_zero.1 hlen.symm)
  obtain ⟨⟨pid0, qty0, pr0⟩, rest, rfl⟩ := List.exists_cons_of_ne_nil henr
  have hdw1 : (productos_decrease tok pid0 qty0 w1).1 = .ok 403 := by
    simp [productos_decrease, World.send, List.headD_eq_head?, htr,
      decrease_stock, hval, hrole]
  have hdwp : (productos_decrease tok pid0 qty0 w1).2.prod = w1.prod := by
    simp [productos_decrease, World.send, List.headD_eq_head?, htr,
      decrease_stock, hval, hrole]
  have hres : reservePhase tok ((pid0, qty0, pr0) :: rest) ((pid0, qty0, pr0) :: rest) w1 =
      (.err 403, (productos_decrease tok pid0 qty0 w1).2) := by
    simp [reservePhase, hdw1]
  have hco := create_order_reserveErr tok items db w w1
    (productos_decrease tok pid0 qty0 w1).2 ((pid0, qty0, pr0) :: rest) 403
    hval hne hchk hres
  rw [hco]
  refine ⟨rfl, ?_, ?_⟩
  · simpa [mkOrder] using setStatus_concat_getLast db.orders
      (mkOrder tok.sub db.nextId ((pid0, qty0, pr0) :: rest)) "CANCELLED"
  · have hw := checkPhase_world tok items w []
    rw [hchk] at hw
    exact hdwp.trans hw.1

/-- C10 witness: user-role token, product 1 with 5 units: decrease is
rejected with 403, the whole placeOrder returns 403, and stock is
untouched. -/
theorem C10_admin_only_mutation_witness :
    decrease_stock tokUser7 1 1 psSingle = (403, psSingle) ∧
    (create_order tokUser7 [(1, 2)] dbEmpty wSingle).1 = .err 403 ∧
    (create_order tokUser7 [(1, 2)] dbEmpty wSingle).2.2.prod = wSingle.prod := by
  have h := C10_admin_only_mutation tokUser7 1 1 psSingle [(1, 2)] dbEmpty wSingle
    ⟨psSingle, [], [.check 1 2]⟩ [(1, 2, 100)] rfl (by decide)
  have h3 := h.2.2 (by decide) (by decide) (by decide)
  exact ⟨h.1, h3.1, h3.2.2⟩

/-- C6: the invariant total_amount = Σ qty · unit_price over the items is
established at creation for every order `create_order` persists (on its
success and on its rollback path alike), and no later operation recomputes
it: cancel and confirm preserve id, total and items of every stored row. -/
theorem C6_total_invariant (tok : Token) (items : List (Int × Int)) (oid : Nat)
    (db : OrderDB) (w : World) :
    (∀ o ∈ (create_order tok items db w).2.1.orders,
        o.total_amount = itemsTotal o.items ∨
        ∃ o0 ∈ db.orders, o.total_amount = o0.total_amount ∧ o.items = o0.items) ∧
    (∀ o ∈ (cancel_order tok oid db w).2.1.orders,
        ∃ o0 ∈ db.orders, o.id = o0.id ∧ o.total_amount = o0.total_amount ∧
          o.items = o0.items) ∧
    (∀ o ∈ (confirm_order tok oid db).2.orders,
        ∃ o0 ∈ db.orders, o.id = o0.id ∧ o.total_amount = o0.total_amount ∧
          o.items = o0.items) := by
  refine ⟨?_, ?_, ?_⟩
  · intro o ho
    rcases create_order_db_shape tok items db w with hdb | ⟨enriched, hsh | hsh⟩
    · rw [hdb] at ho
      exact Or.inr ⟨o, ho, rfl, rfl⟩
    · rw [hsh] at ho
      rcases List.mem_append.1 ho with h | h
      · exact Or.inr ⟨o, h, rfl, rfl⟩
      · rcases List.mem_singleton.1 h with rfl
        exact Or.inl (mkOrder_total _ _ _)
    · rw [hsh] at ho
      obtain ⟨o0, h0, hid, huid, htot, hit⟩ := setStatus_mem ho
      rcases List.mem_append.1 h0 with h | h
      · exact Or.inr ⟨o0, h, htot, hit⟩
      · rcases List.mem_singleton.1 h with rfl
        refine Or.inl ?_
        rw [htot, hit]
        exact mkOrder_total _ _ _
  · intro o ho
    rcases cancel_order_db_shape tok oid db w with hdb | hsh
    · rw [hdb] at ho
      exact ⟨o, ho, rfl, rfl, rfl⟩
    · rw [hsh] at ho
      obtain ⟨o0, h0, hid, huid, htot, hit⟩ := setStatus_mem ho
      exact ⟨o0, h0, hid, htot, hit⟩
  · intro o ho
    rcases confirm_order_db_shape tok oid db with hdb | hsh
    · rw [hdb] at ho
      exact ⟨o, ho, rfl, rfl, rfl⟩
    · rw [hsh] at ho
      obtain ⟨o0, h0, hid, huid, htot, hit⟩ := setStatus_mem ho
      exact ⟨o0, h0, hid, htot, hit⟩

/-- C6 witness: the order persisted in the C4 scenario satisfies the total
invariant. -/
theorem C6_total_invariant_witness :
    (⟨1, 7, "CREATED", 200, [⟨1, 2, 100⟩]⟩ : Order).total_amount =
      itemsTotal [⟨1, 2, 100⟩] ∨
    ∃ o0 ∈ dbEmpty.orders,
      (⟨1, 7, "CREATED", 200, [⟨1, 2, 100⟩]⟩ : Order).total_amount = o0.total_amount ∧
      (⟨1, 7, "CREATED", 200, [⟨1, 2, 100⟩]⟩ : Order).items = o0.items :=
  (C6_total_invariant tokAdmin [(1, 2)] 1 dbEmpty wSingle).1
    ⟨1, 7, "CREATED", 200, [⟨1, 2, 100⟩]⟩ (by decide)

end Micro
